import Mathlib

/- Verification of the similarity-clustering and outlier-detection core of the
rclean repository (src/clustering.rs and src/outliers.rs), as a shallow
embedding.  Machine floating-point arithmetic is idealised as exact arithmetic
(rationals for the pure field computations, real numbers where a square root
is involved); `u8`/`u64`/`usize` values are modelled as `Nat`; fallible
operations return `Except`/`Option`, with `Option.none` modelling a Rust
panic.  The ssdeep comparison and the `DefaultHasher` of the standard library
are external collaborators and appear as explicit function parameters. -/

/-- File record: `SimpleFileInfo` of src/outliers.rs.  The ssdeep hash is kept
as its UTF-8 byte sequence (a `List Nat`) because the LSH bucketing of
src/clustering.rs slices it at byte granularity. -/
structure SimpleFileInfo where
  path : String
  size_bytes : Nat
  ssdeep_hash : Option (List Nat)
deriving DecidableEq, Repr, Inhabited

/-- Cluster record: `LargeFileCluster` of src/clustering.rs.  The two `f64`
statistics are modelled as exact rationals. -/
structure LargeFileCluster where
  cluster_id : Nat
  files : List SimpleFileInfo
  total_size : Nat
  avg_similarity : ℚ
  density : ℚ
deriving DecidableEq, Repr, Inhabited

/-- Error taxonomy: `ClusteringError` of src/clustering.rs. -/
inductive ClusteringError where
  | InsufficientFiles : Nat → Nat → ClusteringError
  | InvalidSimilarity : Nat → ClusteringError
  | DbscanError : String → ClusteringError
  | HashError : String → ClusteringError
deriving DecidableEq, Repr

/-- Result alias `ClusteringResult` of src/clustering.rs. -/
abbrev ClusteringResult (α : Type) := Except ClusteringError α

/-- Decidable equality of Except values, used to evaluate closed
counterexamples. -/
instance {ε α : Type} [DecidableEq ε] [DecidableEq α] :
    DecidableEq (Except ε α) := fun x y =>
  match x, y with
  | .error a, .error b =>
    if h : a = b then .isTrue (by rw [h])
    else .isFalse (fun hx => h (by cases hx; rfl))
  | .error _, .ok _ => .isFalse (fun hx => by cases hx)
  | .ok _, .error _ => .isFalse (fun hx => by cases hx)
  | .ok a, .ok b =>
    if h : a = b then .isTrue (by rw [h])
    else .isFalse (fun hx => h (by cases hx; rfl))

/- ===== merge_overlapping_clusters (src/clustering.rs lines 366-410) ===== -/

/-- State carried through the inner `for (j, other)` loop of
`merge_overlapping_clusters`: the cluster being accumulated, the path set
(`file_paths`, a `HashSet` in Rust, modelled as a list queried by membership)
and the `processed` index set. -/
structure MergeState where
  cluster : LargeFileCluster
  file_paths : List String
  processed : List Nat
deriving Repr

/-- Inner `for file in &other.files` loop of `merge_overlapping_clusters`:
push each file whose path is newly inserted into the path set. -/
def mergeFiles (files : List SimpleFileInfo) (paths : List String)
    (newFiles : List SimpleFileInfo) : List SimpleFileInfo × List String :=
  newFiles.foldl
    (fun fp f => if f.path ∈ fp.2 then fp else (fp.1 ++ [f], f.path :: fp.2))
    (files, paths)

/-- One step of the `for (j, other) in clusters.iter().enumerate().skip(i+1)`
loop of `merge_overlapping_clusters`. -/
def mergeStep (clusters : List LargeFileCluster) (st : MergeState) (j : Nat) :
    MergeState :=
  let other := clusters.getD j default
  if j ∈ st.processed then st
  else if other.files.any (fun f => f.path ∈ st.file_paths) then
    let fp := mergeFiles st.cluster.files st.file_paths other.files
    { cluster := { st.cluster with
        files := fp.1
        total_size := st.cluster.total_size + other.total_size }
      file_paths := fp.2
      processed := st.processed ++ [j] }
  else st

/-- Body of the outer `for (i, cluster)` loop of `merge_overlapping_clusters`:
skip processed indices, run the inner loop, recompute `total_size` from the
merged membership, append the merged cluster. -/
def mergeOuterStep (clusters : List LargeFileCluster)
    (st : List LargeFileCluster × List Nat) (i : Nat) :
    List LargeFileCluster × List Nat :=
  if i ∈ st.2 then st
  else
    let c := clusters.getD i default
    let inner := ((List.range clusters.length).drop (i + 1)).foldl
      (mergeStep clusters)
      { cluster := c, file_paths := c.files.map (·.path), processed := st.2 }
    let merged := { inner.cluster with
        total_size := (inner.cluster.files.map (·.size_bytes)).sum }
    (st.1 ++ [merged], inner.processed ++ [i])

/-- Merging of clusters that share files: `merge_overlapping_clusters` of
src/clustering.rs. -/
def merge_overlapping_clusters (clusters : List LargeFileCluster) :
    List LargeFileCluster :=
  if clusters.isEmpty then []
  else ((List.range clusters.length).foldl (mergeOuterStep clusters) ([], [])).1

/- ===== compute_lsh_buckets / hash_combine (src/clustering.rs 305-336) ===== -/

/-- Continuation-byte test of UTF-8 (bit pattern 10xxxxxx). -/
def isUtf8ContByte (b : Nat) : Bool := 128 ≤ b && b < 192

/-- Char-boundary test of a byte index, following str::is_char_boundary. -/
def isCharBoundary (s : List Nat) (k : Nat) : Bool :=
  k = 0 || k = s.length || (k < s.length && !isUtf8ContByte (s.getD k 0))

/-- Byte slicing s[..k]; none models the Rust panic when k is not a char
boundary of the string. -/
def sliceTo (s : List Nat) (k : Nat) : Option (List Nat) :=
  if isCharBoundary s k then some (s.take k) else none

/-- ASCII digit byte. -/
def isDigitByte (b : Nat) : Bool := 48 ≤ b && b ≤ 57

/-- Parsing of a u64 with unwrap_or(0), as in parts[0].parse::<u64>():
an optional leading plus sign then ASCII digits; emptiness, any other byte,
or overflow falls back to 0. -/
def parseU64or0 (s : List Nat) : Nat :=
  let digits := match s with
    | 43 :: rest => rest
    | _ => s
  if digits ≠ [] ∧ digits.all isDigitByte then
    let v := digits.foldl (fun a b => a * 10 + (b - 48)) 0
    if v < 2 ^ 64 then v else 0
  else 0

/-- Bucket-map insertion buckets.entry(key).or_insert_with(Vec::new).push(f),
with the HashMap modelled as an association list in first-insertion order. -/
def insertBucket (m : List (Nat × List SimpleFileInfo)) (key : Nat)
    (f : SimpleFileInfo) : List (Nat × List SimpleFileInfo) :=
  match m with
  | [] => [(key, [f])]
  | (k, v) :: rest =>
    if k = key then (k, v ++ [f]) :: rest else (k, v) :: insertBucket rest key f

/-- Loop body of compute_lsh_buckets of src/clustering.rs, parameterised by
hash_combine (whose DefaultHasher is an external collaborator): a file
with a hash of at least three colon-separated parts is pushed into the
bucket keyed by hash_combine of the parsed first part and the first eight
bytes of the second.  The value none models the panic of the byte slice
parts[1][..parts[1].len().min(8)] at a non-boundary index. -/
def lshStep (hc : Nat → List Nat → Nat)
    (acc : Option (List (Nat × List SimpleFileInfo))) (f : SimpleFileInfo) :
    Option (List (Nat × List SimpleFileInfo)) :=
  match acc with
  | none => none
  | some buckets =>
    match f.ssdeep_hash with
    | none => some buckets
    | some h =>
      let parts := h.splitOn 58
      if 3 ≤ parts.length then
        let block_size := parseU64or0 (parts.getD 0 [])
        let p1 := parts.getD 1 []
        match sliceTo p1 (min p1.length 8) with
        | none => none
        | some chunk => some (insertBucket buckets (hc block_size chunk) f)
      else some buckets

/-- Iteration of lshStep over the file list (the for-loop of
compute_lsh_buckets). -/
def compute_lsh_buckets (hc : Nat → List Nat → Nat)
    (files : List SimpleFileInfo) :
    Option (List (Nat × List SimpleFileInfo)) :=
  files.foldl (lshStep hc) (some [])

/- ===== similarity_to_distance / build_distance_matrix (lines 58-101) ===== -/

/-- Distance from an ssdeep similarity score: similarity_to_distance of
src/clustering.rs (100.0 - similarity, exact on integers). -/
def similarity_to_distance (similarity : Nat) : Int := 100 - (similarity : Int)

/-- Safe pairwise similarity: calculate_similarity_safe of src/clustering.rs.
The ssdeep comparison is an external collaborator, passed as cmp (its
unwrap_or(0) is part of cmp); a missing hash on either side gives 0. -/
def calculate_similarity_safe (cmp : List Nat → List Nat → Nat)
    (a b : SimpleFileInfo) : Nat :=
  match a.ssdeep_hash, b.ssdeep_hash with
  | some h1, some h2 => cmp h1 h2
  | _, _ => 0

/-- Upper-triangle index pairs (i, j) with i < j, in the order of
(0..n).flat_map(|i| (i+1..n).map(move |j| (i, j))). -/
def upperPairs (n : Nat) : List (Nat × Nat) :=
  (List.range n).flatMap (fun i => ((List.range n).drop (i + 1)).map (fun j => (i, j)))

/-- Pairwise distance matrix: build_distance_matrix of src/clustering.rs.
The Array2 is modelled as a total function on index pairs; cells outside
the n × n range keep the initial value 0 of Array2::zeros, and each
upper-triangle pair fills its two mirror cells. -/
def build_distance_matrix (cmp : List Nat → List Nat → Nat)
    (files : List SimpleFileInfo) : Nat → Nat → Int :=
  (upperPairs files.length).foldl
    (fun d p =>
      let s := calculate_similarity_safe cmp (files.getD p.1 default)
        (files.getD p.2 default)
      let dist := similarity_to_distance s
      fun a b =>
        if (a = p.1 ∧ b = p.2) ∨ (a = p.2 ∧ b = p.1) then dist else d a b)
    (fun _ _ => 0)

/- ===== simple_dbscan / expand_cluster (lines 149-215) ===== -/

/-- Neighborhood query (0..n).filter(|j| distances[[q, j]] <= epsilon), as
performed both by simple_dbscan and by expand_cluster. -/
def regionQuery (dist : Nat → Nat → Int) (n : Nat) (eps : Int) (q : Nat) :
    List Nat :=
  (List.range n).filter (fun j => dist q j ≤ eps)

/-- Seed-list extension of expand_cluster: push every neighbor not already
contained in the seed list. -/
def appendNew (seeds : List Nat) (cands : List Nat) : List Nat :=
  cands.foldl (fun s nb => if nb ∈ s then s else s ++ [nb]) seeds

/-- Mutable DBSCAN state: the labels and visited arrays of simple_dbscan,
modelled as total functions on indices. -/
structure DbscanState where
  labels : Nat → Option Nat
  visited : Nat → Bool

/-- While loop of expand_cluster, indexing into the growable seed list: take
q = seed_set[i]; if q is unvisited, mark it visited, compute its
neighborhood and, when q is core, append its unseen neighbors to the seed
list; label q with the cluster id if it is unlabeled; advance i.  The fuel
argument only bounds the iteration count: the Rust loop runs at most n
iterations because the seed list holds distinct indices below n, and
every call in this file passes fuel n, which expandLoop_measure_le below
proves sufficient. -/
def expandLoop (dist : Nat → Nat → Int) (n : Nat) (eps : Int)
    (minPts cid : Nat) :
    Nat → List Nat → Nat → DbscanState → DbscanState
  | 0, _, _, st => st
  | fuel + 1, seeds, i, st =>
    if i < seeds.length then
      let q := seeds.getD i 0
      let stepped : DbscanState × List Nat :=
        if st.visited q then (st, seeds)
        else
          let vis := fun x => if x = q then true else st.visited x
          let qn := regionQuery dist n eps q
          if minPts ≤ qn.length then
            ({ st with visited := vis }, appendNew seeds qn)
          else ({ st with visited := vis }, seeds)
      let st2 := stepped.1
      let lab := if (st2.labels q).isNone
        then fun x => if x = q then some cid else st2.labels x
        else st2.labels
      expandLoop dist n eps minPts cid fuel stepped.2 (i + 1)
        { st2 with labels := lab }
    else st

/-- DBSCAN main loop: simple_dbscan of src/clustering.rs.  Each unvisited
index is marked visited; if its neighborhood reaches min_points a new
cluster id is assigned (to the point, then through expansion) and the id
counter advances. -/
def simple_dbscan (dist : Nat → Nat → Int) (n : Nat) (eps : Int)
    (minPts : Nat) : Nat → Option Nat :=
  ((List.range n).foldl
    (fun (st : DbscanState × Nat) i =>
      if st.1.visited i then st
      else
        let vis := fun x => if x = i then true else st.1.visited x
        let nbrs := regionQuery dist n eps i
        if minPts ≤ nbrs.length then
          let lab := fun x => if x = i then some st.2 else st.1.labels x
          (expandLoop dist n eps minPts st.2 n nbrs 0
            { labels := lab, visited := vis }, st.2 + 1)
        else ({ st.1 with visited := vis }, st.2))
    ({ labels := fun _ => none, visited := fun _ => false }, 0)).1.labels

/- ===== aggregate_clusters / build_cluster_info (lines 217-302) ===== -/

/-- Single insertion into the cluster_map of aggregate_clusters:
cluster_map.entry(id).or_default().push(idx), as an association list in
first-insertion key order. -/
def insertIdx (m : List (Nat × List Nat)) (id idx : Nat) :
    List (Nat × List Nat) :=
  match m with
  | [] => [(id, [idx])]
  | (k, v) :: rest =>
    if k = id then (k, v ++ [idx]) :: rest else (k, v) :: insertIdx rest id idx

/-- Grouping loop of aggregate_clusters over the enumerated label vector
(indices whose label is None are noise and are dropped). -/
def groupLabels : List (Option Nat) → Nat → List (Nat × List Nat) →
    List (Nat × List Nat)
  | [], _, acc => acc
  | some id :: rest, idx, acc => groupLabels rest (idx + 1) (insertIdx acc id idx)
  | none :: rest, idx, acc => groupLabels rest (idx + 1) acc

/-- Member-index pairs distances[[indices[i], indices[j]]], i < j, iterated
by calculate_avg_similarity and calculate_density. -/
def memberPairs (indices : List Nat) : List (Nat × Nat) :=
  (upperPairs indices.length).map
    (fun p => (indices.getD p.1 0, indices.getD p.2 0))

/-- Mean pairwise similarity: calculate_avg_similarity of src/clustering.rs
(100 for singleton clusters). -/
def calculate_avg_similarity (indices : List Nat) (dist : Nat → Nat → Int) :
    ℚ :=
  if indices.length ≤ 1 then 100
  else
    let pairs := memberPairs indices
    let total : ℚ := (pairs.map (fun p => 100 - ((dist p.1 p.2 : Int) : ℚ))).sum
    let count := pairs.length
    if 0 < count then total / (count : ℚ) else 100

/-- Cluster density: calculate_density of src/clustering.rs, the fraction of
member pairs at distance below 30 (usize division for max_edges is exact). -/
def calculate_density (indices : List Nat) (dist : Nat → Nat → Int) : ℚ :=
  if indices.length ≤ 1 then 1
  else
    let max_edges := indices.length * (indices.length - 1) / 2
    let edges := ((memberPairs indices).filter (fun p => dist p.1 p.2 < 30)).length
    (edges : ℚ) / (max_edges : ℚ)

/-- Cluster assembly: build_cluster_info of src/clustering.rs. -/
def build_cluster_info (cluster_id : Nat) (indices : List Nat)
    (files : List SimpleFileInfo) (dist : Nat → Nat → Int) :
    LargeFileCluster :=
  let cluster_files := indices.map (fun i => files.getD i default)
  { cluster_id := cluster_id
    files := cluster_files
    total_size := (cluster_files.map (·.size_bytes)).sum
    avg_similarity := calculate_avg_similarity indices dist
    density := calculate_density indices dist }

/-- Aggregation of a label assignment: aggregate_clusters of
src/clustering.rs. -/
def aggregate_clusters (files : List SimpleFileInfo)
    (cluster_labels : List (Option Nat)) (dist : Nat → Nat → Int) :
    List LargeFileCluster :=
  (groupLabels cluster_labels 0 []).map
    (fun g => build_cluster_info g.1 g.2 files dist)

/- ===== detect_large_file_clusters / detect_clusters_batched ===== -/

/-- Clustering entry point: detect_large_file_clusters of src/clustering.rs
(lines 112-147), parameterised by the ssdeep comparison cmp. -/
def detect_large_file_clusters (cmp : List Nat → List Nat → Nat)
    (files : List SimpleFileInfo)
    (min_similarity min_cluster_size : Nat) :
    ClusteringResult (List LargeFileCluster) :=
  if ¬ (50 ≤ min_similarity ∧ min_similarity ≤ 100) then
    .error (.InvalidSimilarity min_similarity)
  else if files.length < min_cluster_size then .ok []
  else
    let hashable_files := files.filter (fun f => f.ssdeep_hash.isSome)
    if hashable_files.length < min_cluster_size then .ok []
    else
      let distances := build_distance_matrix cmp hashable_files
      let epsilon := similarity_to_distance min_similarity
      let n := hashable_files.length
      let cluster_labels :=
        (List.range n).map (simple_dbscan distances n epsilon min_cluster_size)
      .ok (aggregate_clusters hashable_files cluster_labels distances)

/-- Per-bucket step of the loop of detect_clusters_batched: a bucket
reaching min_cluster_size is clustered, the question-mark operator
propagating its error, and the clusters extend the accumulator. -/
def batchedStep (cmp : List Nat → List Nat → Nat)
    (min_similarity min_cluster_size : Nat)
    (acc : ClusteringResult (List LargeFileCluster))
    (bucket : Nat × List SimpleFileInfo) :
    ClusteringResult (List LargeFileCluster) :=
  match acc with
  | .error e => .error e
  | .ok all =>
    if min_cluster_size ≤ bucket.2.length then
      match detect_large_file_clusters cmp bucket.2 min_similarity
          min_cluster_size with
      | .error e => .error e
      | .ok cs => .ok (all ++ cs)
    else .ok all

/-- Batched clustering: detect_clusters_batched of src/clustering.rs (lines
339-363).  The outer Option models a panic escaping from
compute_lsh_buckets. -/
def detect_clusters_batched (hc : Nat → List Nat → Nat)
    (cmp : List Nat → List Nat → Nat) (files : List SimpleFileInfo)
    (min_similarity min_cluster_size batch_size : Nat) :
    Option (ClusteringResult (List LargeFileCluster)) :=
  if files.length ≤ batch_size then
    some (detect_large_file_clusters cmp files min_similarity min_cluster_size)
  else
    match compute_lsh_buckets hc files with
    | none => none
    | some lsh_buckets =>
      some (match lsh_buckets.foldl
          (batchedStep cmp min_similarity min_cluster_size) (.ok []) with
        | .error e => .error e
        | .ok all => .ok (merge_overlapping_clusters all))

/- ===== sorting and truncation helpers shared by the outlier detectors ===== -/

/-- Stable insertion step of Vec::sort_by with comparator
b.key.cmp(&a.key): the inserted element passes exactly the elements with
strictly smaller key, so equal keys keep their original order. -/
def insertByKeyDesc {α : Type} (key : α → Nat) (x : α) : List α → List α
  | [] => [x]
  | y :: ys => if key y ≤ key x then x :: y :: ys else y :: insertByKeyDesc key x ys

/-- Stable descending sort by a Nat key, modelling Vec::sort_by with
comparator b.key.cmp(&a.key) (Rust sort_by is stable). -/
def sortByKeyDesc {α : Type} (key : α → Nat) : List α → List α
  | [] => []
  | x :: xs => insertByKeyDesc key x (sortByKeyDesc key xs)

/-- Truncation by an optional cap: the trailing
if let Some(top_n) = options.top_n thin vec.truncate(top_n) step. -/
def truncOpt {α : Type} (n : Option Nat) (l : List α) : List α :=
  match n with
  | some k => l.take k
  | none => l

/- ===== outlier statistics engine (src/outliers.rs 222-286) ===== -/

/-- Options record: OutlierOptions of src/outliers.rs (the f64 threshold is
idealised as a real number). -/
structure OutlierOptions where
  min_size : Option Nat
  top_n : Option Nat
  std_dev_threshold : ℝ
  check_hidden_consumers : Bool
  include_empty_dirs : Bool
  check_patterns : Bool
  enable_clustering : Bool
  cluster_similarity_threshold : Nat
  min_cluster_size : Nat

/-- Outlier record: LargeFileOutlier of src/outliers.rs, with its f64 fields
idealised as reals. -/
structure LargeFileOutlier where
  path : String
  size_bytes : Nat
  size_mb : ℝ
  percentage_of_total : ℝ
  std_devs_from_mean : ℝ

/-- Min-size filter of detect_large_file_outliers: the early return when
options.min_size is Some(ms) and the file is smaller. -/
def matchesMinSize (f : SimpleFileInfo) (options : OutlierOptions) : Bool :=
  match options.min_size with
  | some ms => ms ≤ f.size_bytes
  | none => true

section
open Classical

/-- Population mean of the file sizes: the mean computation of
detect_large_file_outliers (sum of sizes over their count). -/
noncomputable def populationMean (files : List SimpleFileInfo) : ℝ :=
  let sizes : List ℝ := files.map (fun f => (f.size_bytes : ℝ))
  sizes.sum / (sizes.length : ℝ)

/-- Population variance of the file sizes: the variance computation of
detect_large_file_outliers (mean of squared deviations). -/
noncomputable def populationVariance (files : List SimpleFileInfo) : ℝ :=
  let sizes : List ℝ := files.map (fun f => (f.size_bytes : ℝ))
  (sizes.map (fun size => (size - populationMean files) *
    (size - populationMean files))).sum / (sizes.length : ℝ)

/-- Population standard deviation: std_dev = variance.sqrt() of
detect_large_file_outliers. -/
noncomputable def populationStdDev (files : List SimpleFileInfo) : ℝ :=
  Real.sqrt (populationVariance files)

/-- Statistical outlier detector: detect_large_file_outliers of
src/outliers.rs, with f64 arithmetic idealised as exact real arithmetic
(the division of the idealisation yields 0 on a zero divisor). -/
noncomputable def detect_large_file_outliers (files : List SimpleFileInfo)
    (total_size : Nat) (options : OutlierOptions) : List LargeFileOutlier :=
  if files.isEmpty then []
  else
    let mean : ℝ := populationMean files
    let std_dev : ℝ := populationStdDev files
    let outliers := files.filterMap (fun f =>
      if matchesMinSize f options then
        let z_score : ℝ :=
          if 0 < std_dev then ((f.size_bytes : ℝ) - mean) / std_dev else 0
        if options.std_dev_threshold < z_score then
          some { path := f.path
                 size_bytes := f.size_bytes
                 size_mb := (f.size_bytes : ℝ) / (1024 * 1024)
                 percentage_of_total :=
                   (f.size_bytes : ℝ) / (total_size : ℝ) * 100
                 std_devs_from_mean := z_score }
        else none
      else none)
    truncOpt options.top_n (sortByKeyDesc (·.size_bytes) outliers)

/-- Modelled from the spec (section 4.5), for the refinement claim C7: the
z score of a file against the population statistics of all file sizes,
defined to be zero when the standard deviation is zero. -/
noncomputable def specZScore (files : List SimpleFileInfo)
    (f : SimpleFileInfo) : ℝ :=
  if populationStdDev files = 0 then 0
  else ((f.size_bytes : ℝ) - populationMean files) / populationStdDev files

/-- Modelled from the spec (section 4.5), for the refinement claim C7: the
outlier statistics engine as the spec words it — each file passing the
optional min-size filter whose z score exceeds std_dev_threshold is
returned with its derived fields, sorted by size descending and truncated
to top_n. -/
noncomputable def spec_large_file_outliers (files : List SimpleFileInfo)
    (total_size : Nat) (options : OutlierOptions) : List LargeFileOutlier :=
  let eligible := files.filter (fun f => matchesMinSize f options)
  let outliers := (eligible.filter
      (fun f => options.std_dev_threshold < specZScore files f)).map
    (fun f =>
      { path := f.path
        size_bytes := f.size_bytes
        size_mb := (f.size_bytes : ℝ) / (1024 * 1024)
        percentage_of_total := (f.size_bytes : ℝ) / (total_size : ℝ) * 100
        std_devs_from_mean := specZScore files f })
  truncOpt options.top_n (sortByKeyDesc (·.size_bytes) outliers)

end

/- ===== pattern-group detector (src/outliers.rs 347-416) ===== -/

/-- Group record: PatternGroup of src/outliers.rs. -/
structure PatternGroup where
  pattern : String
  count : Nat
  total_size_bytes : Nat
  sample_files : List String
deriving DecidableEq, Repr, Inhabited

/-- ASCII decimal digit (the regex class \d, restricted here to ASCII; the
rust regex crate default is Unicode decimal digits, a difference the
claims below do not depend on). -/
def isDigitChar (c : Char) : Bool := '0' ≤ c && c ≤ '9'

/-- Separator class [-_] of the two pattern regexes. -/
def isSepChar (c : Char) : Bool := c = '-' || c = '_'

/-- Matching of the optional-extension tail (\..+)?$ of both pattern
regexes: the remainder must be empty, or a literal dot followed by at
least one character, none of which may be a newline (regex . excludes
newlines); the captured extension includes the dot. -/
def matchExt (rest : List Char) : Option String :=
  match rest with
  | [] => some ""
  | c :: t =>
    if c = '.' ∧ t ≠ [] ∧ t.all (fun d => d ≠ '\n') then some (String.mk rest)
    else none

/-- Matching of \d{2,}(\..+)?$: a maximal run of at least two digits, then
the optional extension.  Backtracking cannot shorten the digit run,
because the extension must begin with a dot and the anchor forbids
leftovers. -/
def matchDigitsExt (r : List Char) : Option String :=
  let ds := r.takeWhile isDigitChar
  if 2 ≤ ds.length then matchExt (r.drop ds.length) else none

/-- Consumption of an optional separator [-_]? (the greedy branch; when the
next character is a separator the non-consuming branch always fails
afterwards, since neither \d nor the extension dot matches [-_]). -/
def stepSep (r : List Char) : List Char :=
  match r with
  | c :: t => if isSepChar c then t else r
  | [] => r

/-- Matching of the numbered-series tail [-_]?\d{2,}(\..+)?$ after the lazy
prefix of detect_numbered_pattern. -/
def numberedTail (r : List Char) : Option String :=
  matchDigitsExt (stepSep r)

/-- Matching of exactly k digits, as the bounded repetitions \d{4} and \d{2}
of the dated-series regex. -/
def takeDigits (k : Nat) (r : List Char) : Option (List Char) :=
  if (r.take k).length = k ∧ (r.take k).all isDigitChar then some (r.drop k)
  else none

/-- Matching of the dated-series tail
[-_]?\d{4}[-_]?\d{2}[-_]?\d{2}(\..+)?$ after the lazy prefix of
detect_dated_pattern. -/
def datedTail (r : List Char) : Option String :=
  match takeDigits 4 (stepSep r) with
  | none => none
  | some r2 =>
    match takeDigits 2 (stepSep r2) with
    | none => none
    | some r3 =>
      match takeDigits 2 (stepSep r3) with
      | none => none
      | some r4 => matchExt r4

/-- Lazy-prefix search of an anchored regex ^(.+?)TAIL$: prefixes are tried
in increasing length (the lazy quantifier), the prefix must be nonempty
and its characters may not be newlines, and the first tail success wins. -/
def lazySplit (tailMatch : List Char → Option String) :
    List Char → List Char → Option (String × String)
  | _, [] => none
  | pre, c :: rs =>
    if c = '\n' then none
    else
      match tailMatch rs with
      | some ext => some (String.mk (pre ++ [c]), ext)
      | none => lazySplit tailMatch (pre ++ [c]) rs

/-- Numbered-series recogniser: detect_numbered_pattern of src/outliers.rs,
the regex ^(.+?)[-_]?(\d{2,})(\..+)?$ yielding the prefix and extension
captures (the extension defaults to the empty string). -/
def detect_numbered_pattern (filename : String) : Option (String × String) :=
  lazySplit numberedTail [] filename.data

/-- Dated-series recogniser: detect_dated_pattern of src/outliers.rs, the
regex ^(.+?)[-_]?(\d{4}[-_]?\d{2}[-_]?\d{2})(\..+)?$. -/
def detect_dated_pattern (filename : String) : Option (String × String) :=
  lazySplit datedTail [] filename.data

/-- Final path component: a model of Path::file_name().to_string_lossy()
for Unix-style path strings — the last slash-separated component with
empty and current-directory components ignored, and a parent-directory
result rejected. -/
def fileNameOf (p : String) : Option String :=
  let comps := (p.data.splitOn '/').filter (fun c => !(c.isEmpty || c == ['.']))
  match comps.getLast? with
  | none => none
  | some c => if c = ['.', '.'] then none else some (String.mk c)

/-- Group-map insertion pattern_map.entry(pattern).or_default().push(file),
the HashMap modelled as an association list in first-insertion order. -/
def insertGroup (m : List (String × List SimpleFileInfo)) (key : String)
    (f : SimpleFileInfo) : List (String × List SimpleFileInfo) :=
  match m with
  | [] => [(key, [f])]
  | (k, v) :: rest =>
    if k = key then (k, v ++ [f]) :: rest else (k, v) :: insertGroup rest key f

/-- Pattern-group detector: detect_pattern_groups of src/outliers.rs —
numbered patterns are checked before dated ones, groups of fewer than
three files are dropped, at most five sample paths are kept, and the
groups are sorted by total size descending. -/
def detect_pattern_groups (files : List SimpleFileInfo) : List PatternGroup :=
  let pattern_map := files.foldl
    (fun m f =>
      match fileNameOf f.path with
      | none => m
      | some name =>
        match detect_numbered_pattern name with
        | some ps => insertGroup m (ps.1 ++ "*" ++ ps.2) f
        | none =>
          match detect_dated_pattern name with
          | some ps => insertGroup m (ps.1 ++ "*" ++ ps.2) f
          | none => m)
    []
  let groups := (pattern_map.filter (fun g => 3 ≤ g.2.length)).map
    (fun g =>
      { pattern := g.1
        count := g.2.length
        total_size_bytes := (g.2.map (·.size_bytes)).sum
        sample_files := (g.2.take 5).map (·.path) : PatternGroup })
  sortByKeyDesc (·.total_size_bytes) groups

/- ===== concrete records used by witnesses and counterexamples ===== -/

def fileA : SimpleFileInfo := { path := "A", size_bytes := 1000, ssdeep_hash := none }
def fileB : SimpleFileInfo := { path := "B", size_bytes := 2000, ssdeep_hash := none }
def fileC : SimpleFileInfo := { path := "C", size_bytes := 3000, ssdeep_hash := none }

/-- Sizes of the returned clusters of a clustering result, used to exhibit
the C2 failure. -/
def clusterSizes (r : ClusteringResult (List LargeFileCluster)) : List Nat :=
  match r with
  | .ok res => res.map (fun c => c.files.length)
  | .error _ => []

/-- Similarity oracle of the C2 scenario: a star of similarity 60 around
index 0 over indices 1-3, and another around index 4, every other pair
fully dissimilar.  Hashes are the singleton byte strings of the indices. -/
def simC2 (h1 h2 : List Nat) : Nat :=
  if (h1.getD 0 9, h2.getD 0 9) ∈
      [((0 : Nat), (1 : Nat)), (0, 2), (0, 3), (1, 4), (2, 4), (3, 4),
       (1, 0), (2, 0), (3, 0), (4, 1), (4, 2), (4, 3)]
  then 60 else 0

/-- Five files realising the C2 scenario. -/
def filesC2 : List SimpleFileInfo :=
  [ { path := "p0", size_bytes := 1000, ssdeep_hash := some [0] },
    { path := "p1", size_bytes := 1000, ssdeep_hash := some [1] },
    { path := "p2", size_bytes := 1000, ssdeep_hash := some [2] },
    { path := "p3", size_bytes := 1000, ssdeep_hash := some [3] },
    { path := "p4", size_bytes := 1000, ssdeep_hash := some [4] } ]

/-- File with a given path and size and no hash. -/
def fileSized (p : String) (n : Nat) : SimpleFileInfo :=
  { path := p, size_bytes := n, ssdeep_hash := none }

/-- Options record carrying the Default values of OutlierOptions. -/
noncomputable def optsDefault : OutlierOptions :=
  { min_size := none, top_n := some 20, std_dev_threshold := 2,
    check_hidden_consumers := true, include_empty_dirs := false,
    check_patterns := true, enable_clustering := false,
    cluster_similarity_threshold := 70, min_cluster_size := 2 }

/-- Singleton cluster used by witnesses. -/
def clW : LargeFileCluster :=
  { cluster_id := 0, files := [fileA], total_size := 1000,
    avg_similarity := 100, density := 1 }

/-- Extractor of the cluster list from a batched result (empty on error or
panic), used to state closed counterexamples. -/
def batchedClusters
    (r : Option (ClusteringResult (List LargeFileCluster))) :
    List LargeFileCluster :=
  match r with
  | some (.ok res) => res
  | _ => []

/-- Concrete stand-in for hash_combine in counterexamples: the first chunk
byte. -/
def hcFirstByte (_block_size : Nat) (chunk : List Nat) : Nat :=
  chunk.getD 0 0

/-- Concrete stand-in for the ssdeep comparison in counterexamples: full
similarity exactly on equal hashes. -/
def cmpEq (h1 h2 : List Nat) : Nat := if h1 = h2 then 100 else 0

/-- Input of the C5 counterexample: duplicated paths across LSH buckets (the
third and fourth file share one hash and therefore one bucket). -/
def filesC5 : List SimpleFileInfo :=
  [ { path := "A", size_bytes := 10, ssdeep_hash := some [49, 58, 97, 58, 97] },
    { path := "B", size_bytes := 20, ssdeep_hash := some [49, 58, 98, 58, 98] },
    { path := "A", size_bytes := 30, ssdeep_hash := some [49, 58, 99, 58, 99] },
    { path := "B", size_bytes := 40, ssdeep_hash := some [49, 58, 99, 58, 99] } ]

/-- Bucket-key derivation safety of one file: when a hash is present and has
at least three colon-separated parts, byte index min(len, 8) of the second
part must be a char boundary — true in particular whenever the second part
is pure ASCII. -/
def hashSliceSafe (f : SimpleFileInfo) : Bool :=
  match f.ssdeep_hash with
  | none => true
  | some h =>
    let parts := h.splitOn 58
    if 3 ≤ parts.length then
      isCharBoundary (parts.getD 1 []) (min (parts.getD 1 []).length 8)
    else true

/-- File whose hash second field is the nine bytes of the seven-character
ASCII run aaaaaaa followed by the two-byte UTF-8 character U+00E9, so that
byte index 8 falls inside that character. -/
def badHashFile : SimpleFileInfo :=
  { path := "bad", size_bytes := 5,
    ssdeep_hash := some [51, 58, 97, 97, 97, 97, 97, 97, 97, 195, 169, 58, 120] }

/-- File with a short pure-ASCII hash. -/
def goodHashFile : SimpleFileInfo :=
  { path := "good", size_bytes := 5,
    ssdeep_hash := some [51, 58, 97, 98, 99, 58, 120] }

/-- Two hashless files: with batch_size 1 they take the LSH path of
detect_clusters_batched, where no bucket ever reaches the minimum cluster
size. -/
def filesC4 : List SimpleFileInfo :=
  [ { path := "x", size_bytes := 1, ssdeep_hash := none },
    { path := "y", size_bytes := 2, ssdeep_hash := none } ]

/-- Four numbered backup files of the C8 scenario. -/
def backupFiles : List SimpleFileInfo :=
  [ { path := "backup-001.tar", size_bytes := 100, ssdeep_hash := none },
    { path := "backup-002.tar", size_bytes := 200, ssdeep_hash := none },
    { path := "backup-003.tar", size_bytes := 300, ssdeep_hash := none },
    { path := "backup-004.tar", size_bytes := 400, ssdeep_hash := none } ]

/-- Expected single pattern group of the C8 scenario. -/
def backupGroup : PatternGroup :=
  { pattern := "backup*.tar", count := 4, total_size_bytes := 1000,
    sample_files := ["backup-001.tar", "backup-002.tar",
      "backup-003.tar", "backup-004.tar"] }

/-- Three clusters on which single-pass merging is not transitive: the third
overlaps both of the first two, which are disjoint from each other. -/
def clustersNonTransitive : List LargeFileCluster :=
  [ { cluster_id := 0, files := [fileA], total_size := 1000,
      avg_similarity := 100, density := 1 },
    { cluster_id := 1, files := [fileB], total_size := 2000,
      avg_similarity := 100, density := 1 },
    { cluster_id := 2, files := [fileA, fileB], total_size := 3000,
      avg_similarity := 90, density := 1 } ]

/-- Specification predicate for the merging pass: the cluster c is built
from the constituent cluster at some index i — its identification fields
(cluster_id, avg_similarity, density) copied from that constituent, its
file list extending that constituent's files only by files of
later-indexed constituents, and its total size recomputed from the merged
membership. -/
def MergedFrom (clusters : List LargeFileCluster) (c : LargeFileCluster) :
    Prop :=
  ∃ i, i < clusters.length ∧
    c.cluster_id = (clusters.getD i default).cluster_id ∧
    c.avg_similarity = (clusters.getD i default).avg_similarity ∧
    c.density = (clusters.getD i default).density ∧
    (∃ extra, c.files = (clusters.getD i default).files ++ extra ∧
      ∀ f ∈ extra, ∃ j, i < j ∧ j < clusters.length ∧
        f ∈ (clusters.getD j default).files) ∧
    c.total_size = (c.files.map (·.size_bytes)).sum

/- ===================================================================== -/
/- ===== lemmas ======================================================== -/
/- ===================================================================== -/

lemma mem_drop_range {n k x : Nat} (h : x ∈ (List.range n).drop k) :
    k ≤ x ∧ x < n := by
  obtain ⟨i, hi, hx⟩ := List.mem_iff_getElem.mp h
  rw [List.getElem_drop] at hx
  rw [List.length_drop, List.length_range] at hi
  rw [List.getElem_range] at hx
  omega

lemma mergeFiles_files_ext (new : List SimpleFileInfo) :
    ∀ (fs : List SimpleFileInfo) (ps : List String),
      ∃ extra, (mergeFiles fs ps new).1 = fs ++ extra ∧ ∀ f ∈ extra, f ∈ new := by
  induction new with
  | nil => exact fun fs ps => ⟨[], by simp [mergeFiles], by simp⟩
  | cons f rest ih =>
    intro fs ps
    by_cases hmem : f.path ∈ ps
    · obtain ⟨extra, h1, h2⟩ := ih fs ps
      refine ⟨extra, ?_, fun g hg => List.mem_cons_of_mem f (h2 g hg)⟩
      rw [show mergeFiles fs ps (f :: rest) = mergeFiles fs ps rest from by
        simp [mergeFiles, hmem]]
      exact h1
    · obtain ⟨extra, h1, h2⟩ := ih (fs ++ [f]) (f.path :: ps)
      refine ⟨f :: extra, ?_, ?_⟩
      · rw [show mergeFiles fs ps (f :: rest) =
            mergeFiles (fs ++ [f]) (f.path :: ps) rest from by
          simp [mergeFiles, hmem]]
        rw [h1, List.append_assoc]
        rfl
      · intro g hg
        rcases List.mem_cons.mp hg with hg | hg
        · exact hg ▸ List.mem_cons_self f rest
        · exact List.mem_cons_of_mem f (h2 g hg)

lemma mergeFiles_paths_spec (new : List SimpleFileInfo) :
    ∀ (fs : List SimpleFileInfo) (ps : List String),
      (∀ p, p ∈ ps ↔ p ∈ fs.map (·.path)) →
      (∀ p, p ∈ (mergeFiles fs ps new).1.map (·.path) ↔
          p ∈ fs.map (·.path) ∨ p ∈ new.map (·.path)) ∧
      ((fs.map (·.path)).Nodup → ((mergeFiles fs ps new).1.map (·.path)).Nodup) := by
  induction new with
  | nil =>
    intro fs ps _
    exact ⟨fun p => by simp [mergeFiles], fun h => by simpa [mergeFiles] using h⟩
  | cons f rest ih =>
    intro fs ps hinv
    by_cases hmem : f.path ∈ ps
    · have hf : f.path ∈ fs.map (·.path) := (hinv _).mp hmem
      have heq : mergeFiles fs ps (f :: rest) = mergeFiles fs ps rest := by
        simp [mergeFiles, hmem]
      obtain ⟨hmemiff, hnd⟩ := ih fs ps hinv
      rw [heq]
      refine ⟨fun p => ?_, hnd⟩
      rw [hmemiff p]
      simp only [List.map_cons, List.mem_cons]
      constructor
      · rintro (h | h)
        · exact Or.inl h
        · exact Or.inr (Or.inr h)
      · rintro (h | h | h)
        · exact Or.inl h
        · exact Or.inl (h ▸ hf)
        · exact Or.inr h
    · have heq : mergeFiles fs ps (f :: rest) =
          mergeFiles (fs ++ [f]) (f.path :: ps) rest := by
        simp [mergeFiles, hmem]
      have hinv2 : ∀ p, p ∈ f.path :: ps ↔ p ∈ (fs ++ [f]).map (·.path) := by
        intro p
        simp only [List.mem_cons, List.map_append, List.mem_append, hinv p,
          List.map_cons, List.map_nil]
        tauto
      obtain ⟨hmemiff, hnd⟩ := ih (fs ++ [f]) (f.path :: ps) hinv2
      rw [heq]
      constructor
      · intro p
        rw [hmemiff p]
        simp only [List.map_append, List.mem_append, List.map_cons,
          List.map_nil, List.mem_cons, List.mem_singleton, List.not_mem_nil,
          or_false]
        tauto
      · intro hndfs
        apply hnd
        rw [List.map_append, List.nodup_append]
        refine ⟨hndfs, by simp, ?_⟩
        intro a ha hb
        simp only [List.map_cons, List.map_nil, List.mem_singleton] at hb
        exact hmem ((hinv _).mpr (hb ▸ ha))

lemma mergeStep_spec (clusters : List LargeFileCluster) (st : MergeState)
    (j : Nat) :
    (mergeStep clusters st j).cluster.cluster_id = st.cluster.cluster_id ∧
    (mergeStep clusters st j).cluster.avg_similarity = st.cluster.avg_similarity ∧
    (mergeStep clusters st j).cluster.density = st.cluster.density ∧
    ∃ extra, (mergeStep clusters st j).cluster.files = st.cluster.files ++ extra ∧
      ∀ f ∈ extra, f ∈ (clusters.getD j default).files := by
  rw [mergeStep]
  by_cases h1 : j ∈ st.processed
  · rw [if_pos h1]
    exact ⟨rfl, rfl, rfl, [], by simp, by simp⟩
  · rw [if_neg h1]
    by_cases h2 : ((clusters.getD j default).files.any
        fun f => decide (f.path ∈ st.file_paths)) = true
    · rw [if_pos h2]
      obtain ⟨extra, hx1, hx2⟩ :=
        mergeFiles_files_ext (clusters.getD j default).files st.cluster.files
          st.file_paths
      exact ⟨rfl, rfl, rfl, extra, hx1, hx2⟩
    · rw [if_neg h2]
      exact ⟨rfl, rfl, rfl, [], by simp, by simp⟩

lemma mergeInner_spec (clusters : List LargeFileCluster) (js : List Nat) :
    ∀ st0 : MergeState,
      (js.foldl (mergeStep clusters) st0).cluster.cluster_id =
        st0.cluster.cluster_id ∧
      (js.foldl (mergeStep clusters) st0).cluster.avg_similarity =
        st0.cluster.avg_similarity ∧
      (js.foldl (mergeStep clusters) st0).cluster.density =
        st0.cluster.density ∧
      ∃ extra,
        (js.foldl (mergeStep clusters) st0).cluster.files =
          st0.cluster.files ++ extra ∧
        ∀ f ∈ extra, ∃ j ∈ js, f ∈ (clusters.getD j default).files := by
  induction js with
  | nil => exact fun st0 => ⟨rfl, rfl, rfl, ⟨[], by simp, by simp⟩⟩
  | cons j js ih =>
    intro st0
    obtain ⟨hid1, havg1, hden1, extra1, hfiles1, hmem1⟩ :=
      mergeStep_spec clusters st0 j
    obtain ⟨hid2, havg2, hden2, extra2, hfiles2, hmem2⟩ :=
      ih (mergeStep clusters st0 j)
    rw [List.foldl_cons]
    refine ⟨hid2.trans hid1, havg2.trans havg1, hden2.trans hden1,
      extra1 ++ extra2, ?_, ?_⟩
    · rw [hfiles2, hfiles1, List.append_assoc]
    · intro f hf
      rcases List.mem_append.mp hf with hf | hf
      · exact ⟨j, List.mem_cons_self j js, hmem1 f hf⟩
      · obtain ⟨j', hj', hfj'⟩ := hmem2 f hf
        exact ⟨j', List.mem_cons_of_mem j hj', hfj'⟩

lemma merge_mem_spec (clusters : List LargeFileCluster)
    (c : LargeFileCluster) (hc : c ∈ merge_overlapping_clusters clusters) :
    MergedFrom clusters c := by
  by_cases hne : clusters.isEmpty
  · simp [merge_overlapping_clusters, hne] at hc
  · rw [merge_overlapping_clusters, if_neg hne] at hc
    revert hc
    revert c
    refine List.foldlRecOn
      (motive := fun st => ∀ c ∈ st.1, MergedFrom clusters c)
      (List.range clusters.length)
      (mergeOuterStep clusters) ([], []) ?_ ?_
    · intro c hc
      exact absurd hc (List.not_mem_nil c)
    intro st hst i hi c hc
    by_cases hproc : i ∈ st.2
    · rw [mergeOuterStep, if_pos hproc] at hc
      exact hst c hc
    · rw [mergeOuterStep, if_neg hproc] at hc
      simp only [List.mem_append, List.mem_singleton] at hc
      rcases hc with hc | hc
      · exact hst c hc
      · obtain ⟨hid, havg, hden, extra, hfiles, hmem⟩ :=
          mergeInner_spec clusters ((List.range clusters.length).drop (i + 1))
            { cluster := clusters.getD i default
              file_paths := (clusters.getD i default).files.map (·.path)
              processed := st.2 }
        refine ⟨i, List.mem_range.mp hi, ?_, ?_, ?_, ⟨extra, ?_, ?_⟩, ?_⟩
        · rw [hc]; exact hid
        · rw [hc]; exact havg
        · rw [hc]; exact hden
        · rw [hc]; exact hfiles
        · intro f hf
          obtain ⟨j, hj, hfj⟩ := hmem f hf
          obtain ⟨hj1, hj2⟩ := mem_drop_range hj
          exact ⟨j, by omega, hj2, hfj⟩
        · rw [hc]

/- ===== claims C9, C5, C6: merging ==================================== -/

/-- C9: merge_overlapping_clusters changes only the files list and the
total_size of each produced cluster — cluster_id, avg_similarity and
density are copied unchanged from the earliest-indexed constituent cluster
(every other file of the merged membership comes from a strictly
later-indexed constituent), and they are never recomputed over the merged
membership, while total_size is recomputed from it. -/
theorem C9_merge_frame_effect (clusters : List LargeFileCluster)
    (c : LargeFileCluster) (hc : c ∈ merge_overlapping_clusters clusters) :
    MergedFrom clusters c :=
  merge_mem_spec clusters c hc

/-- Witness for C9 at a concrete input. -/
theorem C9_merge_frame_effect_witness :
    clW ∈ merge_overlapping_clusters [clW] ∧ MergedFrom [clW] clW :=
  ⟨by decide, C9_merge_frame_effect [clW] clW (by decide)⟩

/-- C5 counterexample: an input to detect_clusters_batched on which two
intermediate per-bucket clusters (the singleton cluster of the second
B-file and the two-file cluster holding an A-file and a B-file) share the
path B yet are not merged into one returned cluster: the returned list
holds two distinct clusters that both contain path B. -/
theorem C5_counterexample :
    (batchedClusters
        (detect_clusters_batched hcFirstByte cmpEq filesC5 70 1 2)).length = 2 ∧
    "B" ∈ ((batchedClusters
        (detect_clusters_batched hcFirstByte cmpEq filesC5 70 1 2)).getD 0
      default).files.map (·.path) ∧
    "B" ∈ ((batchedClusters
        (detect_clusters_batched hcFirstByte cmpEq filesC5 70 1 2)).getD 1
      default).files.map (·.path) := by
  decide

/-- C5 amended: during the single merging pass a later cluster is merged
into the current representative exactly when it shares a path with the
representative's accumulated membership; for two input clusters sharing a
file path this yields one returned cluster whose membership is the
path-deduplicated union of the two file sets, with total_size recomputed
— but with three or more clusters the pass is not transitive, so two
distinct returned clusters may still share a file path. -/
theorem C5_merge_pairwise_union (c1 c2 : LargeFileCluster)
    (hov : ∃ f ∈ c2.files, f.path ∈ c1.files.map (·.path))
    (hnd : (c1.files.map (·.path)).Nodup) :
    ∃ m, merge_overlapping_clusters [c1, c2] = [m] ∧
      (∀ p, p ∈ m.files.map (·.path) ↔
        p ∈ c1.files.map (·.path) ∨ p ∈ c2.files.map (·.path)) ∧
      (m.files.map (·.path)).Nodup ∧
      m.total_size = (m.files.map (·.size_bytes)).sum := by
  have hstep : merge_overlapping_clusters [c1, c2] =
      [{ cluster_id := c1.cluster_id
         files := (mergeFiles c1.files (c1.files.map (·.path)) c2.files).1
         total_size := ((mergeFiles c1.files (c1.files.map (·.path))
           c2.files).1.map (·.size_bytes)).sum
         avg_similarity := c1.avg_similarity
         density := c1.density }] := by
    rw [merge_overlapping_clusters]
    rw [if_neg (by simp)]
    rw [show List.range ([c1, c2] : List LargeFileCluster).length = [0, 1]
      from rfl]
    simp only [List.foldl_cons, List.foldl_nil]
    have hov2 : ∃ x ∈ c2.files, ∃ a ∈ c1.files, a.path = x.path := by
      simpa using hov
    simp [mergeOuterStep, mergeStep, hov2]
  obtain ⟨hmemiff, hnd2⟩ := mergeFiles_paths_spec c2.files c1.files
    (c1.files.map (·.path)) (fun p => Iff.rfl)
  exact ⟨_, hstep, hmemiff, hnd2 hnd, rfl⟩

/-- Witness for C5 (amended) at a concrete input. -/
theorem C5_merge_pairwise_union_witness :
    (∃ f ∈ ([fileB, fileC] : List SimpleFileInfo),
      f.path ∈ [fileA, fileB].map (·.path)) ∧
    ([fileA, fileB].map (·.path)).Nodup ∧
    ∃ m, merge_overlapping_clusters
        [ { cluster_id := 0, files := [fileA, fileB], total_size := 3000,
            avg_similarity := 90, density := 8 / 10 },
          { cluster_id := 1, files := [fileB, fileC], total_size := 5000,
            avg_similarity := 85, density := 7 / 10 } ] = [m] ∧
      (∀ p, p ∈ m.files.map (·.path) ↔
        p ∈ [fileA, fileB].map (·.path) ∨ p ∈ [fileB, fileC].map (·.path)) ∧
      (m.files.map (·.path)).Nodup ∧
      m.total_size = (m.files.map (·.size_bytes)).sum :=
  ⟨by decide, by decide,
    C5_merge_pairwise_union
      { cluster_id := 0, files := [fileA, fileB], total_size := 3000,
        avg_similarity := 90, density := 8 / 10 }
      { cluster_id := 1, files := [fileB, fileC], total_size := 5000,
        avg_similarity := 85, density := 7 / 10 }
      (by decide) (by decide)⟩

/-- C6: merging two clusters with files A,B (stored total 3000) and B,C
(stored total 5000), the file B being shared, yields exactly one merged
cluster with files A,B,C whose total_size is recomputed as the sum of the
three members' individual sizes; at the member sizes 1000/2000/3000 of the
repository's own test that sum is 6000 and not 3000 + 5000. -/
theorem C6_merge_recomputes_total (a b c : Nat) :
    (∃ m, merge_overlapping_clusters
        [ { cluster_id := 0, files := [fileSized "A" a, fileSized "B" b],
            total_size := 3000, avg_similarity := 90, density := 8 / 10 },
          { cluster_id := 1, files := [fileSized "B" b, fileSized "C" c],
            total_size := 5000, avg_similarity := 85, density := 7 / 10 } ]
        = [m] ∧
      m.files = [fileSized "A" a, fileSized "B" b, fileSized "C" c] ∧
      m.total_size = a + b + c) ∧
    (merge_overlapping_clusters
        [ { cluster_id := 0, files := [fileA, fileB], total_size := 3000,
            avg_similarity := 90, density := 8 / 10 },
          { cluster_id := 1, files := [fileB, fileC], total_size := 5000,
            avg_similarity := 85, density := 7 / 10 } ]).map (·.total_size)
      = [6000] ∧
    (6000 : Nat) ≠ 3000 + 5000 := by
  refine ⟨⟨_, rfl, rfl, ?_⟩, by decide, by decide⟩
  show a + (b + (c + 0)) = a + b + c
  omega

/- ===== claims C10, C4: bucketing safety and threshold validation ===== -/

lemma lshStep_some (hc : Nat → List Nat → Nat)
    (acc : List (Nat × List SimpleFileInfo)) (f : SimpleFileInfo)
    (hf : hashSliceSafe f = true) :
    ∃ acc2, lshStep hc (some acc) f = some acc2 := by
  cases hh : f.ssdeep_hash with
  | none =>
    refine ⟨acc, ?_⟩
    simp only [lshStep, hh]
  | some h =>
    simp only [hashSliceSafe, hh] at hf
    by_cases hp : 3 ≤ (h.splitOn 58).length
    · rw [if_pos hp] at hf
      have hslice : sliceTo ((h.splitOn 58).getD 1 [])
          (min ((h.splitOn 58).getD 1 []).length 8) =
          some (((h.splitOn 58).getD 1 []).take
            (min ((h.splitOn 58).getD 1 []).length 8)) := by
        rw [sliceTo, if_pos hf]
      refine ⟨insertBucket acc
        (hc (parseU64or0 ((h.splitOn 58).getD 0 []))
          (((h.splitOn 58).getD 1 []).take
            (min ((h.splitOn 58).getD 1 []).length 8))) f, ?_⟩
      simp only [lshStep, hh, if_pos hp, hslice]
    · refine ⟨acc, ?_⟩
      simp only [lshStep, hh, if_neg hp]

lemma lsh_fold_isSome (hc : Nat → List Nat → Nat) :
    ∀ (files : List SimpleFileInfo) (acc : List (Nat × List SimpleFileInfo)),
      (∀ f ∈ files, hashSliceSafe f = true) →
      (files.foldl (lshStep hc) (some acc)).isSome = true := by
  intro files
  induction files with
  | nil => intro acc _; rfl
  | cons f rest ih =>
    intro acc hsafe
    obtain ⟨acc2, hstep⟩ :=
      lshStep_some hc acc f (hsafe f (List.mem_cons_self f rest))
    rw [List.foldl_cons, hstep]
    exact ih acc2 (fun g hg => hsafe g (List.mem_cons_of_mem f hg))

/-- C10 counterexample: a file whose hash has three colon-separated parts
and whose second part consists of seven ASCII bytes followed by one
two-byte character makes the bucket-key byte slice hit a non-boundary
index — compute_lsh_buckets panics instead of returning a bucket map. -/
theorem C10_counterexample :
    compute_lsh_buckets hcFirstByte [badHashFile] = none := by decide

/-- C10 amended: the bucket-key derivation of compute_lsh_buckets is total
exactly on hashes whose byte index min(len, 8) of the second
colon-delimited field is a char boundary — in particular on every
pure-ASCII second field — and under that condition the bucket map is
returned without panicking; a second field whose eighth byte falls inside
a multi-byte character makes the slice panic instead. -/
theorem C10_lsh_totality (hc : Nat → List Nat → Nat)
    (files : List SimpleFileInfo)
    (hsafe : ∀ f ∈ files, hashSliceSafe f = true) :
    (compute_lsh_buckets hc files).isSome = true := by
  rw [compute_lsh_buckets]
  exact lsh_fold_isSome hc files [] hsafe

/-- Witness for C10 (amended) at a concrete input. -/
theorem C10_lsh_totality_witness :
    (∀ f ∈ [goodHashFile], hashSliceSafe f = true) ∧
    (compute_lsh_buckets hcFirstByte [goodHashFile]).isSome = true :=
  ⟨by decide, C10_lsh_totality hcFirstByte [goodHashFile] (by decide)⟩

lemma detect_invalid (cmp : List Nat → List Nat → Nat)
    (files : List SimpleFileInfo) (m k : Nat)
    (h : ¬ (50 ≤ m ∧ m ≤ 100)) :
    detect_large_file_clusters cmp files m k =
      .error (.InvalidSimilarity m) := by
  rw [detect_large_file_clusters, if_pos h]

lemma batchedStep_fold_error (cmp : List Nat → List Nat → Nat) (m k : Nat)
    (e : ClusteringError) :
    ∀ buckets : List (Nat × List SimpleFileInfo),
      buckets.foldl (batchedStep cmp m k) (.error e) = .error e := by
  intro buckets
  induction buckets with
  | nil => rfl
  | cons bu rest ih => rw [List.foldl_cons]; exact ih

lemma batchedStep_fold_invalid (cmp : List Nat → List Nat → Nat) (m k : Nat)
    (h : ¬ (50 ≤ m ∧ m ≤ 100)) :
    ∀ buckets : List (Nat × List SimpleFileInfo),
      buckets.foldl (batchedStep cmp m k) (.ok []) =
        if buckets.any (fun bu => k ≤ bu.2.length) then
          .error (.InvalidSimilarity m)
        else .ok [] := by
  intro buckets
  induction buckets with
  | nil => rfl
  | cons bu rest ih =>
    rw [List.foldl_cons]
    by_cases hb : k ≤ bu.2.length
    · have hstep : batchedStep cmp m k (.ok []) bu =
          .error (.InvalidSimilarity m) := by
        rw [batchedStep]
        rw [if_pos hb, detect_invalid cmp bu.2 m k h]
      rw [hstep, batchedStep_fold_error]
      rw [if_pos]
      rw [List.any_cons]
      simp [hb]
    · have hstep : batchedStep cmp m k (.ok []) bu = .ok [] := by
        rw [batchedStep]
        rw [if_neg hb]
      rw [hstep, ih, List.any_cons]
      have hdec : decide (k ≤ bu.2.length) = false := by simpa using hb
      rw [hdec, Bool.false_or]

/-- C4 counterexample: with an out-of-range threshold 49, two hashless
files and batch_size 1, detect_clusters_batched takes the LSH path, no
bucket reaches min_cluster_size, and the call returns Ok [] instead of
the InvalidSimilarity error. -/
theorem C4_counterexample :
    detect_clusters_batched hcFirstByte cmpEq filesC4 49 1 1 =
      some (.ok []) := by decide

/-- C4 amended: for a threshold outside 50..=100,
detect_large_file_clusters always returns InvalidSimilarity carrying that
exact value, before any pairwise distance computation;
detect_clusters_batched returns that error when it delegates
(files fit one batch) or when some LSH bucket reaches min_cluster_size,
but silently returns Ok [] when no bucket qualifies (or propagates the
LSH panic): its result never depends on the similarity comparison, so no
pairwise distance is computed either way. -/
theorem C4_invalid_similarity (m k b : Nat) (h : ¬ (50 ≤ m ∧ m ≤ 100)) :
    (∀ (cmp : List Nat → List Nat → Nat) (files : List SimpleFileInfo),
      detect_large_file_clusters cmp files m k =
        .error (.InvalidSimilarity m)) ∧
    (∀ (hc : Nat → List Nat → Nat) (cmp : List Nat → List Nat → Nat)
        (files : List SimpleFileInfo),
      detect_clusters_batched hc cmp files m k b =
        if files.length ≤ b then some (.error (.InvalidSimilarity m))
        else match compute_lsh_buckets hc files with
          | none => none
          | some buckets =>
            if buckets.any (fun bu => k ≤ bu.2.length) then
              some (.error (.InvalidSimilarity m))
            else some (.ok [])) := by
  refine ⟨fun cmp files => detect_invalid cmp files m k h, ?_⟩
  intro hc cmp files
  rw [detect_clusters_batched]
  by_cases hfit : files.length ≤ b
  · rw [if_pos hfit, if_pos hfit, detect_invalid cmp files m k h]
  · rw [if_neg hfit, if_neg hfit]
    cases hbk : compute_lsh_buckets hc files with
    | none => rfl
    | some buckets =>
      dsimp only
      rw [batchedStep_fold_invalid cmp m k h buckets]
      by_cases hany : buckets.any (fun bu => k ≤ bu.2.length) = true
      · rw [if_pos hany, if_pos hany]
      · rw [if_neg hany, if_neg hany]
        rfl

/-- Witness for C4 (amended) at the concrete threshold 49. -/
theorem C4_invalid_similarity_witness :
    ¬ (50 ≤ 49 ∧ 49 ≤ 100) ∧
    ((∀ (cmp : List Nat → List Nat → Nat) (files : List SimpleFileInfo),
      detect_large_file_clusters cmp files 49 2 =
        .error (.InvalidSimilarity 49)) ∧
    (∀ (hc : Nat → List Nat → Nat) (cmp : List Nat → List Nat → Nat)
        (files : List SimpleFileInfo),
      detect_clusters_batched hc cmp files 49 2 5 =
        if files.length ≤ 5 then some (.error (.InvalidSimilarity 49))
        else match compute_lsh_buckets hc files with
          | none => none
          | some buckets =>
            if buckets.any (fun bu => 2 ≤ bu.2.length) then
              some (.error (.InvalidSimilarity 49))
            else some (.ok []))) :=
  ⟨by decide, C4_invalid_similarity 49 2 5 (by decide)⟩

/- ===== claim C3: distance-matrix symmetry and zero diagonal ========== -/

lemma upperPairs_fst_lt_snd (n : Nat) : ∀ p ∈ upperPairs n, p.1 < p.2 := by
  intro p hp
  simp only [upperPairs, List.mem_flatMap, List.mem_map] at hp
  obtain ⟨i, _, j, hj, hpj⟩ := hp
  obtain ⟨h1, _⟩ := mem_drop_range hj
  rw [← hpj]
  exact Nat.lt_of_succ_le h1

/-- C3: for every similarity oracle and every file slice (hashes present or
absent), the matrix built by build_distance_matrix is symmetric and has a
zero diagonal, unconditionally (cells outside the populated range carry
the initial zeros of Array2::zeros, which satisfy both properties as
well). -/
theorem C3_distance_matrix_symmetric_zero_diagonal
    (cmp : List Nat → List Nat → Nat) (files : List SimpleFileInfo) :
    (∀ i j, build_distance_matrix cmp files i j =
      build_distance_matrix cmp files j i) ∧
    (∀ i, build_distance_matrix cmp files i i = 0) := by
  rw [build_distance_matrix]
  refine List.foldlRecOn
    (motive := fun (d : Nat → Nat → Int) =>
      (∀ a b, d a b = d b a) ∧ ∀ a, d a a = 0)
    (upperPairs files.length) _ (fun _ _ => 0)
    ⟨fun a b => rfl, fun a => rfl⟩ ?_
  intro d hd p hp
  constructor
  · intro a b
    show (if (a = p.1 ∧ b = p.2) ∨ (a = p.2 ∧ b = p.1) then _ else d a b) =
      (if (b = p.1 ∧ a = p.2) ∨ (b = p.2 ∧ a = p.1) then _ else d b a)
    by_cases hab : (a = p.1 ∧ b = p.2) ∨ (a = p.2 ∧ b = p.1)
    · rw [if_pos hab, if_pos (Or.symm (hab.imp And.symm And.symm))]
    · rw [if_neg hab, if_neg (fun hba => hab
        (Or.symm (hba.imp And.symm And.symm)))]
      exact hd.1 a b
  · intro a
    show (if (a = p.1 ∧ a = p.2) ∨ (a = p.2 ∧ a = p.1) then _ else d a a) = 0
    have hlt := upperPairs_fst_lt_snd files.length p hp
    rw [if_neg ?_]
    · exact hd.2 a
    · rintro (⟨h1, h2⟩ | ⟨h1, h2⟩) <;> omega

/- ===== claim C1: path-disjointness of a single clustering run ======== -/

lemma insertIdx_mem_spec (id idx : Nat) :
    ∀ (acc : List (Nat × List Nat)), ∀ g ∈ insertIdx acc id idx, ∀ x ∈ g.2,
      (∃ g' ∈ acc, g'.1 = g.1 ∧ x ∈ g'.2) ∨ (x = idx ∧ g.1 = id) := by
  intro acc
  induction acc with
  | nil =>
    intro g hg x hx
    simp only [insertIdx, List.mem_singleton] at hg
    subst hg
    simp only [List.mem_singleton] at hx
    exact Or.inr ⟨hx, rfl⟩
  | cons kv rest ih =>
    obtain ⟨k, v⟩ := kv
    intro g hg x hx
    simp only [insertIdx] at hg
    by_cases hk : k = id
    · rw [if_pos hk] at hg
      rcases List.mem_cons.mp hg with hg | hg
      · subst hg
        rcases List.mem_append.mp hx with hx | hx
        · exact Or.inl ⟨(k, v), List.mem_cons_self _ _, rfl, hx⟩
        · simp only [List.mem_singleton] at hx
          exact Or.inr ⟨hx, hk⟩
      · exact Or.inl ⟨g, List.mem_cons_of_mem _ hg, rfl, hx⟩
    · rw [if_neg hk] at hg
      rcases List.mem_cons.mp hg with hg | hg
      · subst hg
        exact Or.inl ⟨(k, v), List.mem_cons_self _ _, rfl, hx⟩
      · rcases ih g hg x hx with ⟨g', hg', he, hx'⟩ | h
        · exact Or.inl ⟨g', List.mem_cons_of_mem _ hg', he, hx'⟩
        · exact Or.inr h

lemma insertIdx_keys (id idx : Nat) :
    ∀ (acc : List (Nat × List Nat)),
      (insertIdx acc id idx).map Prod.fst =
        if id ∈ acc.map Prod.fst then acc.map Prod.fst
        else acc.map Prod.fst ++ [id] := by
  intro acc
  induction acc with
  | nil => simp [insertIdx]
  | cons kv rest ih =>
    obtain ⟨k, v⟩ := kv
    by_cases hk : k = id
    · subst hk
      simp [insertIdx]
    · simp only [insertIdx, if_neg hk, List.map_cons]
      rw [ih]
      by_cases hmem : id ∈ rest.map Prod.fst
      · rw [if_pos hmem, if_pos (List.mem_cons_of_mem _ hmem)]
      · rw [if_neg hmem, if_neg ?_]
        · rfl
        · intro hcon
          rcases List.mem_cons.mp hcon with hcon | hcon
          · exact hk hcon.symm
          · exact hmem hcon

lemma insertIdx_keys_nodup (id idx : Nat) (acc : List (Nat × List Nat))
    (h : (acc.map Prod.fst).Nodup) :
    ((insertIdx acc id idx).map Prod.fst).Nodup := by
  rw [insertIdx_keys]
  by_cases hmem : id ∈ acc.map Prod.fst
  · rw [if_pos hmem]; exact h
  · rw [if_neg hmem]
    rw [List.nodup_append]
    refine ⟨h, List.nodup_singleton id, ?_⟩
    intro a ha hb
    simp only [List.mem_singleton] at hb
    exact hmem (hb ▸ ha)

lemma groupLabels_mem_spec (P : Nat → Nat → Prop) :
    ∀ (labs : List (Option Nat)) (pos : Nat) (acc : List (Nat × List Nat)),
      (∀ g ∈ acc, ∀ x ∈ g.2, P x g.1) →
      (∀ k id, labs.getD k none = some id → P (pos + k) id) →
      ∀ g ∈ groupLabels labs pos acc, ∀ x ∈ g.2, P x g.1 := by
  intro labs
  induction labs with
  | nil =>
    intro pos acc hacc _ g hg
    rw [groupLabels] at hg
    exact hacc g hg
  | cons o rest ih =>
    intro pos acc hacc hlab
    cases o with
    | none =>
      rw [groupLabels]
      refine ih (pos + 1) acc hacc ?_
      intro k id hk
      have h2 := hlab (k + 1) id (by simpa using hk)
      have he : pos + (k + 1) = pos + 1 + k := by omega
      rwa [he] at h2
    | some id0 =>
      rw [groupLabels]
      refine ih (pos + 1) (insertIdx acc id0 pos) ?_ ?_
      · intro g hg x hx
        rcases insertIdx_mem_spec id0 pos acc g hg x hx with
          ⟨g', hg', he, hx'⟩ | ⟨hx', he⟩
        · exact he ▸ hacc g' hg' x hx'
        · subst hx'
          rw [he]
          have h0 := hlab 0 id0 (by simp)
          rwa [Nat.add_zero] at h0
      · intro k id hk
        have h2 := hlab (k + 1) id (by simpa using hk)
        have he : pos + (k + 1) = pos + 1 + k := by omega
        rwa [he] at h2

lemma groupLabels_keys_nodup :
    ∀ (labs : List (Option Nat)) (pos : Nat) (acc : List (Nat × List Nat)),
      (acc.map Prod.fst).Nodup →
      ((groupLabels labs pos acc).map Prod.fst).Nodup := by
  intro labs
  induction labs with
  | nil =>
    intro pos acc h
    rw [groupLabels]
    exact h
  | cons o rest ih =>
    intro pos acc h
    cases o with
    | none => rw [groupLabels]; exact ih _ _ h
    | some id0 =>
      rw [groupLabels]
      exact ih _ _ (insertIdx_keys_nodup id0 pos acc h)

lemma getD_some_lt_length {labs : List (Option Nat)} {x id : Nat}
    (h : labs.getD x none = some id) : x < labs.length := by
  by_contra hx
  rw [List.getD_eq_default _ _ (Nat.le_of_not_lt hx)] at h
  exact Option.noConfusion h

lemma pairwise_path_getD {files : List SimpleFileInfo}
    (hdist : files.Pairwise (fun a b => a.path ≠ b.path))
    {x1 x2 : Nat} (h1 : x1 < files.length) (h2 : x2 < files.length)
    (hne : x1 ≠ x2) :
    (files.getD x1 default).path ≠ (files.getD x2 default).path := by
  have hp := List.pairwise_iff_get.mp hdist
  rw [List.getD_eq_getElem _ _ h1, List.getD_eq_getElem _ _ h2]
  rcases Nat.lt_or_ge x1 x2 with hlt | hge
  · exact hp ⟨x1, h1⟩ ⟨x2, h2⟩ hlt
  · have hlt2 : x2 < x1 := Nat.lt_of_le_of_ne hge (Ne.symm hne)
    exact (hp ⟨x2, h2⟩ ⟨x1, h1⟩ hlt2).symm

lemma build_cluster_info_files (cid : Nat) (idxs : List Nat)
    (files : List SimpleFileInfo) (dist : Nat → Nat → Int) :
    (build_cluster_info cid idxs files dist).files =
      idxs.map (fun x => files.getD x default) := rfl

lemma aggregate_clusters_disjoint (files : List SimpleFileInfo)
    (labs : List (Option Nat)) (dist : Nat → Nat → Int)
    (hdist : files.Pairwise (fun a b => a.path ≠ b.path))
    (hlen : labs.length ≤ files.length) :
    ∀ i j (hi : i < (aggregate_clusters files labs dist).length)
      (hj : j < (aggregate_clusters files labs dist).length), i ≠ j →
      ∀ p, p ∈ ((aggregate_clusters files labs dist).get ⟨i, hi⟩).files.map
          (·.path) →
        p ∉ ((aggregate_clusters files labs dist).get ⟨j, hj⟩).files.map
          (·.path) := by
  intro i j hi hj hij p hpi hpj
  have hmem : ∀ g ∈ groupLabels labs 0 [], ∀ x ∈ g.2,
      labs.getD x none = some g.1 := by
    refine groupLabels_mem_spec (fun x id => labs.getD x none = some id)
      labs 0 [] (fun g hg => absurd hg (List.not_mem_nil g)) ?_
    intro k id hk
    rwa [Nat.zero_add]
  have hkeys : ((groupLabels labs 0 []).map Prod.fst).Nodup :=
    groupLabels_keys_nodup labs 0 [] (by simp)
  have hi2 : i < (groupLabels labs 0 []).length := by
    simpa [aggregate_clusters] using hi
  have hj2 : j < (groupLabels labs 0 []).length := by
    simpa [aggregate_clusters] using hj
  have hgi : (aggregate_clusters files labs dist).get ⟨i, hi⟩ =
      build_cluster_info ((groupLabels labs 0 []).get ⟨i, hi2⟩).1
        ((groupLabels labs 0 []).get ⟨i, hi2⟩).2 files dist := by
    rw [List.get_eq_getElem, List.get_eq_getElem]
    simp [aggregate_clusters]
  have hgj : (aggregate_clusters files labs dist).get ⟨j, hj⟩ =
      build_cluster_info ((groupLabels labs 0 []).get ⟨j, hj2⟩).1
        ((groupLabels labs 0 []).get ⟨j, hj2⟩).2 files dist := by
    rw [List.get_eq_getElem, List.get_eq_getElem]
    simp [aggregate_clusters]
  rw [hgi, build_cluster_info_files, List.map_map, List.mem_map] at hpi
  rw [hgj, build_cluster_info_files, List.map_map, List.mem_map] at hpj
  obtain ⟨x1, hx1m, hx1p⟩ := hpi
  obtain ⟨x2, hx2m, hx2p⟩ := hpj
  have hl1 := hmem _ (List.get_mem _ _ _) x1 hx1m
  have hl2 := hmem _ (List.get_mem _ _ _) x2 hx2m
  have hb1 : x1 < labs.length := getD_some_lt_length hl1
  have hb2 : x2 < labs.length := getD_some_lt_length hl2
  by_cases hx12 : x1 = x2
  · subst hx12
    rw [hl1] at hl2
    have hkey : ((groupLabels labs 0 []).get ⟨i, hi2⟩).1 =
        ((groupLabels labs 0 []).get ⟨j, hj2⟩).1 :=
      Option.some.inj hl2
    refine hij ?_
    have h2 : ((groupLabels labs 0 []).map Prod.fst).get
          ⟨i, by simpa using hi2⟩ =
        ((groupLabels labs 0 []).map Prod.fst).get ⟨j, by simpa using hj2⟩ := by
      rw [List.get_eq_getElem, List.get_eq_getElem]
      rw [List.getElem_map, List.getElem_map]
      simpa [List.get_eq_getElem] using hkey
    rw [List.get_eq_getElem, List.get_eq_getElem] at h2
    exact (List.Nodup.getElem_inj_iff hkeys).mp h2
  · exact pairwise_path_getD hdist (Nat.lt_of_lt_of_le hb1 hlen)
      (Nat.lt_of_lt_of_le hb2 hlen) hx12 (hx1p.trans hx2p.symm)

/-- C1: for an input list with pairwise-distinct file paths, a single
(non-batched) detect_large_file_clusters call yields path-disjoint
clusters — no file path occurs in the files lists of two distinct returned
clusters, whatever the similarity oracle. -/
theorem C1_clusters_path_disjoint (cmp : List Nat → List Nat → Nat)
    (files : List SimpleFileInfo) (m k : Nat)
    (hdist : files.Pairwise (fun a b => a.path ≠ b.path))
    (res : List LargeFileCluster)
    (hres : detect_large_file_clusters cmp files m k = .ok res) :
    ∀ i j (hi : i < res.length) (hj : j < res.length), i ≠ j →
      ∀ p, p ∈ (res.get ⟨i, hi⟩).files.map (·.path) →
        p ∉ (res.get ⟨j, hj⟩).files.map (·.path) := by
  rw [detect_large_file_clusters] at hres
  by_cases hv : ¬ (50 ≤ m ∧ m ≤ 100)
  · rw [if_pos hv] at hres
    exact absurd hres (by simp)
  · rw [if_neg hv] at hres
    by_cases h1 : files.length < k
    · rw [if_pos h1] at hres
      obtain rfl : ([] : List LargeFileCluster) = res := by simpa using hres
      intro i j hi
      simp at hi
    · rw [if_neg h1] at hres
      dsimp only at hres
      by_cases h2 : (files.filter (fun f => f.ssdeep_hash.isSome)).length < k
      · rw [if_pos h2] at hres
        obtain rfl : ([] : List LargeFileCluster) = res := by simpa using hres
        intro i j hi
        simp at hi
      · rw [if_neg h2] at hres
        obtain rfl := Except.ok.inj hres
        refine aggregate_clusters_disjoint _ _ _ (hdist.filter _) ?_
        simp

/-- Witness for C1 at a concrete input. -/
theorem C1_clusters_path_disjoint_witness :
    filesC4.Pairwise (fun a b => a.path ≠ b.path) ∧
    detect_large_file_clusters cmpEq filesC4 70 2 = .ok [] ∧
    (∀ i j (hi : i < ([] : List LargeFileCluster).length)
      (hj : j < ([] : List LargeFileCluster).length), i ≠ j →
      ∀ p, p ∈ (([] : List LargeFileCluster).get ⟨i, hi⟩).files.map (·.path) →
        p ∉ (([] : List LargeFileCluster).get ⟨j, hj⟩).files.map (·.path)) :=
  ⟨by decide, by decide,
    C1_clusters_path_disjoint cmpEq filesC4 70 2 (by decide) [] (by decide)⟩

/- ===== claim C2: minimum cluster size ================================ -/

section
set_option maxHeartbeats 4000000

/-- C2: evaluation of the full clustering pipeline at the failing input —
five files whose pairwise similarities form two overlapping stars
(similarity 60 between file 0 and each of files 1-3, and between file 4
and each of files 1-3, all other pairs 0), with min_similarity 50 and
min_cluster_size 4.  The call returns two clusters of sizes 4 and 1: the
border points 1-3 are claimed by the cluster of core point 0, so the
later core point 4 is left with a singleton cluster, below
min_cluster_size, contradicting the claim and the repository's own
property test prop_minimum_cluster_size. -/
theorem C2_small_cluster_returned :
    clusterSizes (detect_large_file_clusters simC2 filesC2 50 4) = [4, 1] := by
  decide

end

/- ===== claim C7: the outlier statistics engine ======================= -/

lemma zscore_if_eq (d s : ℝ) (hs : 0 ≤ s) :
    (if 0 < s then d / s else 0) = (if s = 0 then 0 else d / s) := by
  by_cases h : s = 0
  · rw [if_neg (by rw [h]; exact lt_irrefl 0), if_pos h]
  · rw [if_pos (lt_of_le_of_ne hs (Ne.symm h)), if_neg h]

lemma filterMap_eq_filter_filter_map {α β : Type} (p : α → Bool)
    (Q : α → Prop) [DecidablePred Q] (g : α → β) :
    ∀ l : List α,
      l.filterMap
        (fun a => if p a then (if Q a then some (g a) else none) else none) =
      ((l.filter p).filter (fun a => decide (Q a))).map g := by
  intro l
  induction l with
  | nil => rfl
  | cons a l ih =>
    by_cases hp : p a
    · by_cases hq : Q a
      · simp [List.filterMap_cons, List.filter_cons, hp, hq, ih]
      · simp [List.filterMap_cons, List.filter_cons, hp, hq, ih]
    · simp [List.filterMap_cons, List.filter_cons, hp, ih]

open Classical in
lemma code_z_eq_specZScore (files : List SimpleFileInfo)
    (f : SimpleFileInfo) :
    (if 0 < populationStdDev files then
      ((f.size_bytes : ℝ) - populationMean files) / populationStdDev files
    else 0) = specZScore files f := by
  rw [specZScore]
  exact zscore_if_eq _ _ (Real.sqrt_nonneg _)

lemma mem_insertByKeyDesc {α : Type} (key : α → Nat) (x z : α) :
    ∀ l : List α, z ∈ insertByKeyDesc key x l ↔ z = x ∨ z ∈ l := by
  intro l
  induction l with
  | nil => simp [insertByKeyDesc]
  | cons y ys ih =>
    by_cases h : key y ≤ key x
    · simp [insertByKeyDesc, if_pos h]
    · simp only [insertByKeyDesc, if_neg h, List.mem_cons, ih]
      tauto

lemma sorted_insertByKeyDesc {α : Type} (key : α → Nat) (x : α) :
    ∀ l : List α, l.Pairwise (fun a b => key b ≤ key a) →
      (insertByKeyDesc key x l).Pairwise (fun a b => key b ≤ key a) := by
  intro l
  induction l with
  | nil => intro _; simp [insertByKeyDesc]
  | cons y ys ih =>
    intro hs
    rw [List.pairwise_cons] at hs
    obtain ⟨hy, hys⟩ := hs
    by_cases h : key y ≤ key x
    · rw [insertByKeyDesc, if_pos h, List.pairwise_cons]
      constructor
      · intro z hz
        rcases List.mem_cons.mp hz with hz | hz
        · exact hz ▸ h
        · exact le_trans (hy z hz) h
      · exact List.pairwise_cons.mpr ⟨hy, hys⟩
    · rw [insertByKeyDesc, if_neg h, List.pairwise_cons]
      constructor
      · intro z hz
        rcases (mem_insertByKeyDesc key x z ys).mp hz with hz | hz
        · subst hz; omega
        · exact hy z hz
      · exact ih hys

lemma sorted_sortByKeyDesc {α : Type} (key : α → Nat) :
    ∀ l : List α,
      (sortByKeyDesc key l).Pairwise (fun a b => key b ≤ key a) := by
  intro l
  induction l with
  | nil => simp [sortByKeyDesc]
  | cons x xs ih =>
    rw [sortByKeyDesc]
    exact sorted_insertByKeyDesc key x _ ih

lemma mem_sortByKeyDesc {α : Type} (key : α → Nat) (z : α) :
    ∀ l : List α, z ∈ sortByKeyDesc key l ↔ z ∈ l := by
  intro l
  induction l with
  | nil => simp [sortByKeyDesc]
  | cons x xs ih =>
    rw [sortByKeyDesc, mem_insertByKeyDesc, ih, List.mem_cons]

lemma truncOpt_sublist {α : Type} (n : Option Nat) (l : List α) :
    (truncOpt n l).Sublist l := by
  cases n with
  | none => exact List.Sublist.refl l
  | some k => exact List.take_sublist k l

lemma truncOpt_length_le {α : Type} (k : Nat) (l : List α) :
    (truncOpt (some k) l).length ≤ k := by
  simp [truncOpt]

section
open Classical

/-- C7: the statistical outlier detector agrees with the spec description —
it keeps exactly the files passing the optional min-size filter whose
z score (deviation from the population mean of all sizes over the
population standard deviation, zero at zero deviation) exceeds
std_dev_threshold, each carrying percentage_of_total =
size / total_size * 100 (and size_mb and the z score), sorted by size
descending and truncated to top_n when provided.  Real arithmetic
idealises the f64 computations. -/
theorem C7_outlier_statistics_engine (files : List SimpleFileInfo)
    (total_size : Nat) (options : OutlierOptions) :
    detect_large_file_outliers files total_size options =
      spec_large_file_outliers files total_size options ∧
    (detect_large_file_outliers files total_size options).Pairwise
      (fun a b => b.size_bytes ≤ a.size_bytes) ∧
    (∀ n, options.top_n = some n →
      (detect_large_file_outliers files total_size options).length ≤ n) := by
  refine ⟨?_, ?_, ?_⟩
  · rw [detect_large_file_outliers, spec_large_file_outliers]
    by_cases hemp : files.isEmpty
    · rw [if_pos hemp]
      have hnil : files = [] := List.isEmpty_iff.mp hemp
      subst hnil
      cases options.top_n <;> simp [truncOpt, sortByKeyDesc]
    · rw [if_neg hemp]
      dsimp only
      congr 1
      congr 1
      simp only [code_z_eq_specZScore files]
      exact filterMap_eq_filter_filter_map
        (fun f => matchesMinSize f options)
        (fun f => options.std_dev_threshold < specZScore files f)
        (fun f =>
          ({ path := f.path
             size_bytes := f.size_bytes
             size_mb := (f.size_bytes : ℝ) / (1024 * 1024)
             percentage_of_total := (f.size_bytes : ℝ) / (total_size : ℝ) * 100
             std_devs_from_mean := specZScore files f } : LargeFileOutlier))
        files
  · rw [detect_large_file_outliers]
    by_cases hemp : files.isEmpty
    · rw [if_pos hemp]
      exact List.Pairwise.nil
    · rw [if_neg hemp]
      dsimp only
      exact List.Pairwise.sublist (truncOpt_sublist _ _)
        (sorted_sortByKeyDesc _ _)
  · intro n hn
    rw [detect_large_file_outliers]
    by_cases hemp : files.isEmpty
    · rw [if_pos hemp]
      exact Nat.zero_le n
    · rw [if_neg hemp]
      dsimp only
      rw [hn]
      exact truncOpt_length_le n _

/-- Witness for C7: the truncation clause evaluated at the default options
and an empty file list. -/
theorem C7_outlier_statistics_engine_witness :
    optsDefault.top_n = some 20 ∧
    (detect_large_file_outliers [] 0 optsDefault).length ≤ 20 :=
  ⟨rfl, (C7_outlier_statistics_engine [] 0 optsDefault).2.2 20 rfl⟩

end

/- ===== claim C8: the pattern-group detector ========================== -/

/-- C8: every surviving pattern group has at least three member files and
at most five sample paths, and the four files backup-001.tar through
backup-004.tar produce exactly one pattern group, with count 4, the
pattern backup*.tar (containing backup), the recomputed total size, and
all four paths as samples. -/
theorem C8_pattern_group_detector (files : List SimpleFileInfo) :
    (∀ g ∈ detect_pattern_groups files,
      3 ≤ g.count ∧ g.sample_files.length ≤ 5) ∧
    detect_pattern_groups backupFiles = [backupGroup] := by
  constructor
  · intro g hg
    rw [detect_pattern_groups] at hg
    rw [mem_sortByKeyDesc] at hg
    rw [List.mem_map] at hg
    obtain ⟨g0, hg0, rfl⟩ := hg
    rw [List.mem_filter] at hg0
    obtain ⟨_, hcond⟩ := hg0
    refine ⟨by simpa using hcond, ?_⟩
    simp [List.length_take]
  · decide

/-- Witness for C8 at the concrete backup scenario. -/
theorem C8_pattern_group_detector_witness :
    backupGroup ∈ detect_pattern_groups backupFiles ∧
    (3 ≤ backupGroup.count ∧ backupGroup.sample_files.length ≤ 5) :=
  ⟨by decide, (C8_pattern_group_detector backupFiles).1 backupGroup (by decide)⟩

/- ===== exactness of the expandLoop fuel ============================== -/

lemma appendNew_mem :
    ∀ (cands seeds : List Nat) (x : Nat),
      x ∈ appendNew seeds cands → x ∈ seeds ∨ x ∈ cands := by
  intro cands
  induction cands with
  | nil => exact fun seeds x h => Or.inl h
  | cons c cs ih =>
    intro seeds x h
    have hstep : appendNew seeds (c :: cs) =
        appendNew (if c ∈ seeds then seeds else seeds ++ [c]) cs := by
      rw [appendNew, appendNew, List.foldl_cons]
    rw [hstep] at h
    have h2 := ih (if c ∈ seeds then seeds else seeds ++ [c]) x h
    by_cases hmem : c ∈ seeds
    · rw [if_pos hmem] at h2
      rcases h2 with h2 | h2
      · exact Or.inl h2
      · exact Or.inr (List.mem_cons_of_mem c h2)
    · rw [if_neg hmem] at h2
      rcases h2 with h2 | h2
      · rcases List.mem_append.mp h2 with h2 | h2
        · exact Or.inl h2
        · simp only [List.mem_singleton] at h2
          exact Or.inr (h2 ▸ List.mem_cons_self c cs)
      · exact Or.inr (List.mem_cons_of_mem c h2)

lemma appendNew_measure (n : Nat) :
    ∀ (cands seeds : List Nat), (∀ c ∈ cands, c < n) →
      (Finset.range n \ (appendNew seeds cands).toFinset).card +
        (appendNew seeds cands).length =
      (Finset.range n \ seeds.toFinset).card + seeds.length := by
  intro cands
  induction cands with
  | nil => intro seeds _; rfl
  | cons c cs ih =>
    intro seeds hc
    have hstep : appendNew seeds (c :: cs) =
        appendNew (if c ∈ seeds then seeds else seeds ++ [c]) cs := by
      rw [appendNew, appendNew, List.foldl_cons]
    rw [hstep]
    by_cases hmem : c ∈ seeds
    · rw [if_pos hmem]
      exact ih seeds (fun x hx => hc x (List.mem_cons_of_mem c hx))
    · rw [if_neg hmem]
      rw [ih (seeds ++ [c]) (fun x hx => hc x (List.mem_cons_of_mem c hx))]
      have hins : (seeds ++ [c]).toFinset = insert c seeds.toFinset := by
        ext x
        simp [or_comm]
      rw [hins]
      have hsd : Finset.range n \ insert c seeds.toFinset =
          (Finset.range n \ seeds.toFinset).erase c := by
        rw [Finset.sdiff_insert]
      rw [hsd]
      have hcmem : c ∈ Finset.range n \ seeds.toFinset := by
        rw [Finset.mem_sdiff, Finset.mem_range]
        exact ⟨hc c (List.mem_cons_self c cs), by
          intro hcon
          exact hmem (List.mem_toFinset.mp hcon)⟩
      have hcard := Finset.card_erase_of_mem hcmem
      have hpos : 1 ≤ (Finset.range n \ seeds.toFinset).card :=
        Finset.card_pos.mpr ⟨c, hcmem⟩
      rw [hcard, List.length_append]
      simp only [List.length_singleton]
      omega

lemma expandLoop_fuel_stable (dist : Nat → Nat → Int) (n : Nat) (eps : Int)
    (minPts cid : Nat) :
    ∀ (fuel : Nat) (seeds : List Nat) (i : Nat) (st : DbscanState),
      (∀ s ∈ seeds, s < n) →
      (Finset.range n \ seeds.toFinset).card + seeds.length - i ≤ fuel →
      expandLoop dist n eps minPts cid fuel seeds i st =
        expandLoop dist n eps minPts cid (fuel + 1) seeds i st := by
  intro fuel
  induction fuel with
  | zero =>
    intro seeds i st hseeds hm
    have hge : seeds.length ≤ i := by omega
    rw [expandLoop, expandLoop]
    rw [if_neg (by omega)]
  | succ fuel ih =>
    intro seeds i st hseeds hm
    rw [expandLoop]
    conv_rhs => rw [expandLoop]
    by_cases hlt : i < seeds.length
    · rw [if_pos hlt, if_pos hlt]
      set q := seeds.getD i 0 with hq
      by_cases hv : st.visited q
      · simp only [hv]
        exact ih seeds (i + 1) _ hseeds (by omega)
      · simp only [hv, Bool.false_eq_true, if_false]
        by_cases hcore : minPts ≤ (regionQuery dist n eps q).length
        · simp only [if_pos hcore]
          have hseeds2 : ∀ s ∈ appendNew seeds (regionQuery dist n eps q),
              s < n := by
            intro s hs
            rcases appendNew_mem (regionQuery dist n eps q) seeds s hs with
              hs | hs
            · exact hseeds s hs
            · rw [regionQuery, List.mem_filter] at hs
              exact List.mem_range.mp hs.1
          have hmeas := appendNew_measure n (regionQuery dist n eps q) seeds
            (by
              intro x hx
              rw [regionQuery, List.mem_filter] at hx
              exact List.mem_range.mp hx.1)
          refine ih _ (i + 1) _ hseeds2 ?_
          rw [hmeas]
          omega
        · simp only [if_neg hcore]
          exact ih seeds (i + 1) _ hseeds (by omega)
    · rw [if_neg hlt, if_neg hlt]

/-- With the fuel n that simple_dbscan supplies, expandLoop has already
reached its fixpoint on any neighborhood seed list: extra fuel never
changes the result, so the bounded loop agrees with the unbounded Rust
loop. -/
lemma expandLoop_fuel_exact (dist : Nat → Nat → Int) (n : Nat) (eps : Int)
    (minPts cid : Nat) (seeds : List Nat) (st : DbscanState)
    (hseeds : ∀ s ∈ seeds, s < n) (hnodup : seeds.Nodup) :
    ∀ extra, expandLoop dist n eps minPts cid (n + extra) seeds 0 st =
      expandLoop dist n eps minPts cid n seeds 0 st := by
  have hsub : seeds.toFinset ⊆ Finset.range n := by
    intro x hx
    rw [Finset.mem_range]
    exact hseeds x (List.mem_toFinset.mp hx)
  have hcard : seeds.toFinset.card = seeds.length :=
    List.toFinset_card_of_nodup hnodup
  have hmeas : (Finset.range n \ seeds.toFinset).card + seeds.length = n := by
    rw [Finset.card_sdiff hsub, Finset.card_range, hcard]
    have := Finset.card_le_card hsub
    rw [Finset.card_range, hcard] at this
    omega
  intro extra
  induction extra with
  | zero => rfl
  | succ extra ih =>
    have := expandLoop_fuel_stable dist n eps minPts cid (n + extra) seeds 0
      st hseeds (by omega)
    rw [show n + (extra + 1) = (n + extra) + 1 from rfl, ← this, ih]
